import Mathlib

/-!
Verification of the medication-name resolution logic and the OAuth callback
route of `demos/flask/flask_app.py`.

Modelling conventions for the shallow embedding of the Python code:

* FHIR model objects (`Coding`, `CodeableConcept`, reference, prescription)
  are plain structures.  Python truthiness on optional data is mapped as
  follows: an optional string field (`display`, `text`, `system`,
  `reference`) is modelled as a `String` where `""` stands for both
  `None` and the empty string — the code only ever tests truthiness, under
  which the two are indistinguishable; an optional list field (`coding`) is
  modelled as a `List` where `[]` stands for both `None` and the empty
  list, for the same reason; an optional object field
  (`medicationCodeableConcept`, `medicationReference`, the client handle)
  is modelled as `Option`, since a present object is always truthy in
  Python.
* The external fetch `Medication.read(med_id, server)` is modelled as a
  function `String → Except String (Option CodeableConcept)` stored in the
  client handle: `.error e` models the call raising an exception with
  message `e`, `.ok code` models a successful read returning the resource's
  `code` field (itself optional).  `smart.handle_callback(url)` is modelled
  the same way as `String → Except String Unit`.
* `str.split(sep)` for a one-character separator is modelled by
  `pySplitList` below, which reproduces Python's semantics (including the
  empty chunks Python keeps).
-/

/-- A FHIR `Coding`: a (system identifier, display label) pair.  `""` models
an absent field. -/
structure Coding where
  system : String
  display : String
deriving Repr, DecidableEq

/-- A FHIR `CodeableConcept`: an ordered list of codings plus optional free
text.  `[]` models an absent or empty coding list, `""` absent text. -/
structure CodeableConcept where
  coding : List Coding
  text : String
deriving Repr, DecidableEq

/-- A FHIR reference object holding a reference string (`""` if absent). -/
structure FHIRReference where
  reference : String
deriving Repr, DecidableEq

/-- A `MedicationRequest` (prescription): the medication is either an inline
concept or a reference to a separate `Medication` resource. -/
structure MedicationRequest where
  id : String
  medicationCodeableConcept : Option CodeableConcept
  medicationReference : Option FHIRReference
deriving Repr, DecidableEq

/-- The FHIR client handle, reduced to the capabilities the resolver and the
callback route use: an optional server whose `Medication.read` is modelled
as a function from medication id to either a raised exception (`.error`) or
the fetched resource's optional `code` field, and the OAuth callback
processor `handle_callback`, modelled as a function from the callback URL to
either a raised exception or success. -/
structure Smart where
  server : Option (String → Except String (Option CodeableConcept))
  handleCallback : String → Except String Unit

/-- Python `s.split(sep)` for a single-character separator, on the character
list of the string: splits at every occurrence of `sep`, keeping empty
chunks, and always returns at least one chunk. -/
def pySplitList (sep : Char) : List Char → List (List Char)
  | [] => [[]]
  | c :: cs =>
    if c = sep then [] :: pySplitList sep cs
    else
      match pySplitList sep cs with
      | [] => [[c]]
      | s :: ss => (c :: s) :: ss

/-- Python `ref.split("/")[1]`: the second chunk of the split, `none` when
the index is out of range (Python would raise `IndexError` there). -/
def refMedId (ref : String) : Option String :=
  ((pySplitList '/' ref.data).map String.mk).get? 1

/-- `_get_medication_by_ref(ref, smart)`: validate the reference string,
extract the medication id as `ref.split("/")[1]`, and fetch the referenced
`Medication`, returning its `code`.  Any exception raised by the fetch is
caught and folded into `none`. -/
def getMedicationByRef (ref : String) (smart : Option Smart) :
    Option CodeableConcept :=
  if ref == "" || !(ref.data.contains '/') then none
  else
    match refMedId ref with
    | none => none
    | some med_id =>
      match smart with
      | none => none
      | some s =>
        match s.server with
        | none => none
        | some read =>
          match read med_id with
          | .ok code => code
          | .error _ => none

/-- The fixed RxNorm coding-system URI preferred by `_med_name`. -/
def rxnormURI : String := "http://www.nlm.nih.gov/research/umls/rxnorm"

/-- `_med_name(med_code)`: pick a display string from a codeable concept.
Preference order: first RxNorm coding with a non-empty display, then first
coding with a non-empty display, then the concept's free text, then the
sentinel `"Unnamed Medication"`; an absent concept gives the sentinel
`"Medication data unavailable"`. -/
def medName (med_code : Option CodeableConcept) : String :=
  match med_code with
  | none => "Medication data unavailable"
  | some c =>
    match (if c.coding.isEmpty then none
           else c.coding.find? fun cd => cd.system == rxnormURI && cd.display != "") with
    | some cd => cd.display
    | none =>
      match (if c.coding.isEmpty then none
             else c.coding.find? fun cd => cd.display != "") with
      | some cd => cd.display
      | none => if c.text != "" then c.text else "Unnamed Medication"

/-- `_get_med_name(prescription, smart_client)`: resolve a display name for
a prescription.  An inline concept with free text and no codings returns the
text immediately; otherwise an inline concept is named by `medName`; else a
non-empty medication reference is fetched through the client handle and the
result named by `medName`; when nothing resolves, the sentinel
`"Error: medication details not found"` is returned. -/
def getMedName (prescription : Option MedicationRequest)
    (smart_client : Option Smart) : String :=
  match prescription with
  | none => "Invalid prescription data"
  | some p =>
    match p.medicationCodeableConcept with
    | some mc =>
      if mc.coding.isEmpty && mc.text != "" then mc.text
      else medName (some mc)
    | none =>
      let med_code : Option CodeableConcept :=
        match p.medicationReference with
        | some r =>
          if r.reference != "" && smart_client.isSome then
            getMedicationByRef r.reference smart_client
          else none
        | none => none
      match med_code with
      | some c => medName (some c)
      | none => "Error: medication details not found"

/-- An HTTP response of the Flask app: either a rendered HTML page body or a
redirect to a location. -/
inductive HttpResponse where
  | page (html : String)
  | redirect (location : String)
deriving Repr, DecidableEq

/-- The `/fhir-app/` route handler `callback()`.  `smart` is the client
handle from `_get_smart()` (`none` when initialization failed), `code` the
value of the `code` query parameter (`none` when absent), `url` the full
request URL.  A falsy `code` renders the missing-code error page; otherwise
the URL is handed to `handle_callback`, whose exception (if any) is caught
and rendered inline with a restart link, and success redirects to `/`. -/
def callback (smart : Option Smart) (code : Option String) (url : String) :
    HttpResponse :=
  match smart with
  | none =>
    .page "<h1>Error</h1><p>FHIR Client not initialized. Cannot handle callback.</p>"
  | some s =>
    if (code.getD "") == "" then
      .page "<h1>Authorization Error</h1><p>Authorization code is missing.</p>"
    else
      match s.handleCallback url with
      | .error e =>
        .page ("<h1>Authorization Error</h1><p>" ++ e ++
               "</p><p><a href=\"/\">Start over</a></p>")
      | .ok _ => .redirect "/"

/-- The characterization the reference-splitting claim states: the substring
of `s` strictly between the first `'/'` and the next `'/'` (or the end of
the string when there is no second `'/'`). -/
def betweenFirstTwoSlashes (s : String) : String :=
  String.mk (((s.data.dropWhile (· ≠ '/')).drop 1).takeWhile (· ≠ '/'))

/-- `s` does not occur among a concept's data strings: its free text and
every coding's display label differ from `s`. -/
def conceptAvoids (s : String) (c : CodeableConcept) : Bool :=
  c.text != s && c.coding.all fun cd => cd.display != s

/-- Every concept a handle's server can successfully fetch avoids `s`. -/
def smartAvoids (s : String) (sm : Smart) : Prop :=
  ∀ read m c, sm.server = some read → read m = Except.ok (some c) →
    conceptAvoids s c = true

/-! ### Helper lemmas about the resolver -/

/-- Every value `medName` returns is a non-empty string: the sentinels are
non-empty literals, a display returned from a coding search satisfied the
search's non-emptiness test, and the text branch is guarded. -/
theorem medName_ne_empty (med_code : Option CodeableConcept) :
    medName med_code ≠ "" := by
  unfold medName
  split
  · decide
  · rename_i c
    split
    · rename_i cd hcd
      split at hcd
      · exact absurd hcd (by simp)
      · have hp := List.find?_some hcd
        simp only [Bool.and_eq_true, bne_iff_ne, ne_eq] at hp
        exact hp.2
    · split
      · rename_i cd hcd
        split at hcd
        · exact absurd hcd (by simp)
        · have hp := List.find?_some hcd
          simpa using hp
      · split
        · rename_i h
          simpa using h
        · decide

/-- If `getMedicationByRef` produced a concept, it came from a successful
fetch through the handle's server. -/
theorem getMedicationByRef_some (ref : String) (smart : Option Smart)
    (c : CodeableConcept) (h : getMedicationByRef ref smart = some c) :
    ∃ s read m, smart = some s ∧ s.server = some read ∧
      read m = .ok (some c) := by
  unfold getMedicationByRef at h
  split at h
  · exact absurd h (by simp)
  · split at h
    · exact absurd h (by simp)
    · rename_i med_id hmid
      split at h
      · exact absurd h (by simp)
      · rename_i s
        split at h
        · exact absurd h (by simp)
        · rename_i read hread
          split at h
          · rename_i code hcode
            exact ⟨s, read, med_id, rfl, hread, by rw [hcode, h]⟩
          · exact absurd h (by simp)

/-! ### C1 -/

/-- C1: for every prescription input (absent, inline concept, reference, or
neither) and any client handle, `getMedName` returns a non-empty string —
the model is a total function into `String`, so it never returns an absent
value and never throws. -/
theorem getMedName_ne_empty (prescription : Option MedicationRequest)
    (smart_client : Option Smart) :
    getMedName prescription smart_client ≠ "" := by
  unfold getMedName
  split
  · decide
  · rename_i p
    split
    · rename_i mc hmc
      split
      · rename_i h
        simp only [Bool.and_eq_true, bne_iff_ne, ne_eq] at h
        exact h.2
      · exact medName_ne_empty (some mc)
    · split
      · rename_i r hr
        split
        · dsimp only
          split
          · rename_i c hc
            exact medName_ne_empty (some c)
          · decide
        · decide
      · decide

/-! ### C2 -/

/-- C2: whenever a concept contains some coding with the RxNorm system URI
and a non-empty display, `medName` returns an RxNorm coding's display label
(the first such in list order), regardless of the coding's position and of
any other codings or free text. -/
theorem medName_rxnorm (c : CodeableConcept)
    (h : ∃ cd ∈ c.coding, cd.system = rxnormURI ∧ cd.display ≠ "") :
    ∃ cd ∈ c.coding, cd.system = rxnormURI ∧ cd.display ≠ "" ∧
      medName (some c) = cd.display ∧
      (∀ i : Fin c.coding.length, (c.coding.get i).system = rxnormURI →
        (c.coding.get i).display ≠ "" → cd ∈ c.coding.take (i + 1)) := by
  have hfind : (c.coding.find? fun cd =>
      cd.system == rxnormURI && cd.display != "").isSome := by
    rw [List.find?_isSome]
    obtain ⟨cd, hm, h1, h2⟩ := h
    exact ⟨cd, hm, by simp [h1, h2]⟩
  obtain ⟨cd, hcd⟩ := Option.isSome_iff_exists.mp hfind
  have hp := List.find?_some hcd
  have hmem := List.mem_of_find?_eq_some hcd
  simp only [Bool.and_eq_true, beq_iff_eq, bne_iff_ne, ne_eq] at hp
  have hne : c.coding.isEmpty = false := by
    cases hc : c.coding
    · rw [hc] at hmem; exact absurd hmem (by simp)
    · simp [hc]
  refine ⟨cd, hmem, hp.1, hp.2, ?_, ?_⟩
  · unfold medName
    simp [hne, hcd]
  · intro i hsys hdisp
    rcases List.find?_eq_some_iff_getElem.mp hcd with ⟨-, j, hj, hget, hbefore⟩
    by_cases hij : j ≤ (i : ℕ)
    · rw [← hget]
      exact List.mem_take_iff_getElem.mpr ⟨j, by omega, rfl⟩
    · exfalso
      have := hbefore (i : ℕ) (by omega)
      simp only [Bool.and_eq_true, beq_iff_eq, bne_iff_ne, ne_eq,
        Bool.not_eq_true] at this
      rw [List.get_eq_getElem] at hsys hdisp
      simp [hsys, hdisp] at this

/-- Witness for C2 on a concrete concept: the RxNorm coding sits second, the
concept also has another coding and free text, and its label is returned. -/
theorem medName_rxnorm_witness :
    (∃ cd ∈ (CodeableConcept.mk
        [Coding.mk "http://loinc.org" "Foo",
         Coding.mk "http://www.nlm.nih.gov/research/umls/rxnorm" "Bar"]
        "some text").coding,
      cd.system = rxnormURI ∧ cd.display ≠ "" ∧
      medName (some (CodeableConcept.mk
        [Coding.mk "http://loinc.org" "Foo",
         Coding.mk "http://www.nlm.nih.gov/research/umls/rxnorm" "Bar"]
        "some text")) = cd.display ∧
      (∀ i : Fin (CodeableConcept.mk
        [Coding.mk "http://loinc.org" "Foo",
         Coding.mk "http://www.nlm.nih.gov/research/umls/rxnorm" "Bar"]
        "some text").coding.length,
        ((CodeableConcept.mk
        [Coding.mk "http://loinc.org" "Foo",
         Coding.mk "http://www.nlm.nih.gov/research/umls/rxnorm" "Bar"]
        "some text").coding.get i).system = rxnormURI →
        ((CodeableConcept.mk
        [Coding.mk "http://loinc.org" "Foo",
         Coding.mk "http://www.nlm.nih.gov/research/umls/rxnorm" "Bar"]
        "some text").coding.get i).display ≠ "" →
        cd ∈ (CodeableConcept.mk
        [Coding.mk "http://loinc.org" "Foo",
         Coding.mk "http://www.nlm.nih.gov/research/umls/rxnorm" "Bar"]
        "some text").coding.take (i + 1))) ∧
    medName (some (CodeableConcept.mk
        [Coding.mk "http://loinc.org" "Foo",
         Coding.mk "http://www.nlm.nih.gov/research/umls/rxnorm" "Bar"]
        "some text")) = "Bar" :=
  ⟨medName_rxnorm _
    ⟨Coding.mk "http://www.nlm.nih.gov/research/umls/rxnorm" "Bar",
      by simp, rfl, by decide⟩,
   by decide⟩

/-! ### C3 -/

/-- C3: a prescription whose inline concept has no codings and non-empty
free text resolves to exactly that text, for every client handle (so the
reference and the handle are never consulted). -/
theorem getMedName_inline_text (p : MedicationRequest) (mc : CodeableConcept)
    (smart_client : Option Smart)
    (h1 : p.medicationCodeableConcept = some mc)
    (h2 : mc.coding = []) (h3 : mc.text ≠ "") :
    getMedName (some p) smart_client = mc.text := by
  unfold getMedName
  simp [h1, h2, h3]

/-- Witness for C3: the spec's own example, inline concept
`text = "Aspirin 81mg"` with no codings, and a reference also present. -/
theorem getMedName_inline_text_witness :
    getMedName (some (MedicationRequest.mk "rx1"
      (some (CodeableConcept.mk [] "Aspirin 81mg"))
      (some (FHIRReference.mk "Medication/123")))) none = "Aspirin 81mg" :=
  getMedName_inline_text _ _ none rfl rfl (by decide)

/-! ### C4 -/

/-- C4: when no coding has the RxNorm system together with a non-empty
display, but some coding has a non-empty display, `medName` returns the
display of the first coding (in list order) with a non-empty display. -/
theorem medName_first_display (c : CodeableConcept) (cd : Coding)
    (hno : ∀ x ∈ c.coding, x.system = rxnormURI → x.display = "")
    (hfind : c.coding.find? (fun x => x.display != "") = some cd) :
    medName (some c) = cd.display := by
  have hmem := List.mem_of_find?_eq_some hfind
  have hne : c.coding.isEmpty = false := by
    cases hc : c.coding
    · rw [hc] at hmem; exact absurd hmem (by simp)
    · simp [hc]
  have hrx : (c.coding.find? fun x =>
      x.system == rxnormURI && x.display != "") = none := by
    rw [List.find?_eq_none]
    intro x hx
    simp only [Bool.and_eq_true, beq_iff_eq, bne_iff_ne, ne_eq, not_and]
    intro h1 h2
    exact h2 (hno x hx h1)
  unfold medName
  simp [hne, hrx, hfind]

/-- Witness for C4: first coding's display is empty, second and third are
non-empty, none is RxNorm; the second coding's display is returned. -/
theorem medName_first_display_witness :
    medName (some (CodeableConcept.mk
      [Coding.mk "http://loinc.org" "",
       Coding.mk "http://snomed.info/sct" "Foo",
       Coding.mk "http://loinc.org" "Bar"] "txt")) = "Foo" :=
  medName_first_display _ (Coding.mk "http://snomed.info/sct" "Foo")
    (by decide) (by decide)

/-! ### C5 -/

/-- C5: when the coding list is non-empty but every display is empty and the
free text is non-empty, `medName` returns the free text. -/
theorem medName_text_fallback (c : CodeableConcept)
    (h1 : c.coding ≠ []) (h2 : ∀ x ∈ c.coding, x.display = "")
    (h3 : c.text ≠ "") :
    medName (some c) = c.text := by
  have hne : c.coding.isEmpty = false := by
    cases hc : c.coding
    · exact absurd hc h1
    · simp [hc]
  have hrx : (c.coding.find? fun x =>
      x.system == rxnormURI && x.display != "") = none := by
    rw [List.find?_eq_none]
    intro x hx
    simp [h2 x hx]
  have hany : (c.coding.find? fun x => x.display != "") = none := by
    rw [List.find?_eq_none]
    intro x hx
    simp [h2 x hx]
  unfold medName
  simp [hne, hrx, hany, h3]

/-- Witness for C5: two codings, both with empty displays, and free text. -/
theorem medName_text_fallback_witness :
    medName (some (CodeableConcept.mk
      [Coding.mk "http://www.nlm.nih.gov/research/umls/rxnorm" "",
       Coding.mk "http://loinc.org" ""] "Lisinopril")) = "Lisinopril" :=
  medName_text_fallback _ (by decide) (by decide) (by decide)

/-! ### C6 -/

/-- Counterexample for C6 as stated: on a concept with no codings and no
free text, `medName` returns the literal `"Unnamed Medication"`, which is
not the claimed literal `"unnamed medication"`. -/
theorem medName_unnamed_counterexample :
    medName (some (CodeableConcept.mk [] "")) = "Unnamed Medication" ∧
    medName (some (CodeableConcept.mk [] "")) ≠ "unnamed medication" := by
  constructor
  · rfl
  · decide

/-- C6 (amended): a concept with no codings (empty or absent coding list)
and no free text resolves to the fixed sentinel `"Unnamed Medication"`. -/
theorem medName_unnamed (c : CodeableConcept)
    (h1 : c.coding = []) (h2 : c.text = "") :
    medName (some c) = "Unnamed Medication" := by
  unfold medName
  simp [h1, h2]

/-- Witness for the amended C6 at the empty concept. -/
theorem medName_unnamed_witness :
    medName (some (CodeableConcept.mk [] "")) = "Unnamed Medication" :=
  medName_unnamed _ rfl rfl

/-! ### C7 -/

/-- When the prescription has no inline concept and reference resolution
yields no concept, `getMedName` falls back to its not-found sentinel. -/
theorem getMedName_of_unresolved (p : MedicationRequest)
    (smart_client : Option Smart)
    (hcc : p.medicationCodeableConcept = none)
    (h : ∀ r, p.medicationReference = some r → r.reference ≠ "" →
      smart_client.isSome = true →
      getMedicationByRef r.reference smart_client = none) :
    getMedName (some p) smart_client = "Error: medication details not found" := by
  unfold getMedName
  simp only [hcc]
  cases hr : p.medicationReference with
  | none => simp
  | some r =>
    by_cases hcond : (r.reference != "" && smart_client.isSome) = true
    · have hrn : getMedicationByRef r.reference smart_client = none := by
        simp only [Bool.and_eq_true, bne_iff_ne, ne_eq] at hcond
        exact h r hr hcond.1 hcond.2
      simp [hcond, hrn]
    · simp [hcond]

/-- Counterexample for C7 as stated: a prescription with neither concept nor
reference resolves to the literal `"Error: medication details not found"`,
which is not the claimed literal `"medication details not found"`. -/
theorem getMedName_not_found_counterexample :
    getMedName (some (MedicationRequest.mk "p1" none none)) none =
      "Error: medication details not found" ∧
    getMedName (some (MedicationRequest.mk "p1" none none)) none ≠
      "medication details not found" := by
  constructor
  · rfl
  · decide

/-- C7 (amended): whenever no concept can be resolved for a present
prescription — no inline concept and (no reference, or an empty reference
string, or no client handle, or a reference missing the `'/'` separator, or
an external fetch that raises) — `getMedName` returns the fixed sentinel
`"Error: medication details not found"`, which differs from the unnamed-
medication sentinel; the model is total, so no exception reaches the
caller. -/
theorem getMedName_not_found (p : MedicationRequest)
    (smart_client : Option Smart)
    (hcc : p.medicationCodeableConcept = none)
    (h : p.medicationReference = none
      ∨ (∃ r, p.medicationReference = some r ∧ r.reference = "")
      ∨ smart_client = none
      ∨ (∃ r, p.medicationReference = some r ∧
          r.reference.data.contains '/' = false)
      ∨ (∃ r s read m e, p.medicationReference = some r ∧
          r.reference.data.contains '/' = true ∧ smart_client = some s ∧
          s.server = some read ∧ refMedId r.reference = some m ∧
          read m = Except.error e)) :
    getMedName (some p) smart_client = "Error: medication details not found" ∧
    getMedName (some p) smart_client ≠ medName (some (CodeableConcept.mk [] "")) := by
  have hmain : getMedName (some p) smart_client =
      "Error: medication details not found" := by
    apply getMedName_of_unresolved p smart_client hcc
    intro r hr href hsome
    rcases h with h | ⟨r', hr', he⟩ | h | ⟨r', hr', hns⟩ |
        ⟨r', s, read, m, e, hr', hcont, hs, hserver, hmid, hread⟩
    · rw [h] at hr; exact absurd hr (by simp)
    · rw [hr'] at hr
      injection hr with hrr
      subst hrr
      exact absurd he href
    · rw [h] at hsome; exact absurd hsome (by simp)
    · rw [hr'] at hr
      injection hr with hrr
      subst hrr
      have hnm : '/' ∉ r'.reference.data := by simpa using hns
      unfold getMedicationByRef
      simp [hnm]
    · rw [hr'] at hr
      injection hr with hrr
      subst hrr
      unfold getMedicationByRef
      simp [hcont, href, hmid, hs, hserver, hread]
  exact ⟨hmain, by rw [hmain]; decide⟩

/-- Witness for the amended C7: the spec's example — a prescription holding
only the reference `"Medication/123"`, against a handle whose fetch raises a
network error; the not-found sentinel is returned and differs from the
unnamed-medication sentinel. -/
theorem getMedName_not_found_witness :
    getMedName (some (MedicationRequest.mk "p1" none
        (some (FHIRReference.mk "Medication/123"))))
      (some (Smart.mk (some fun _ => Except.error "network error")
        fun _ => Except.ok ())) =
      "Error: medication details not found" ∧
    getMedName (some (MedicationRequest.mk "p1" none
        (some (FHIRReference.mk "Medication/123"))))
      (some (Smart.mk (some fun _ => Except.error "network error")
        fun _ => Except.ok ())) ≠
      medName (some (CodeableConcept.mk [] "")) :=
  getMedName_not_found _ _ rfl
    (Or.inr (Or.inr (Or.inr (Or.inr
      ⟨FHIRReference.mk "Medication/123", _, _, "123", "network error",
        rfl, rfl, rfl, rfl, rfl, rfl⟩))))

/-! ### C8 -/

/-- Counterexample for C8 as stated: with an initialized handle whose
callback processor always succeeds, a present-but-empty `code` query
parameter still renders the missing-code error page instead of handing the
URL off and redirecting. -/
theorem callback_empty_code_counterexample :
    callback (some (Smart.mk none fun _ => Except.ok ())) (some "")
        "https://app.example/fhir-app/?code=&state=xyz" =
      HttpResponse.page
        "<h1>Authorization Error</h1><p>Authorization code is missing.</p>" ∧
    callback (some (Smart.mk none fun _ => Except.ok ())) (some "")
        "https://app.example/fhir-app/?code=&state=xyz" ≠
      HttpResponse.redirect "/" := by
  constructor
  · rfl
  · decide

/-- C8 (amended): for a callback request with an initialized client handle,
a missing *or empty* `code` query parameter renders the missing-code error
page (not a redirect); a non-empty code hands the full callback URL to the
handle's callback processor and redirects to Home on success, and any
exception raised during the handoff is caught and rendered as an inline
error page with a restart link. -/
theorem callback_behavior (s : Smart) (code : Option String) (url : String) :
    ((code.getD "") = "" →
      callback (some s) code url =
        HttpResponse.page
          "<h1>Authorization Error</h1><p>Authorization code is missing.</p>") ∧
    ((code.getD "") ≠ "" →
      (s.handleCallback url = Except.ok () →
        callback (some s) code url = HttpResponse.redirect "/") ∧
      (∀ e, s.handleCallback url = Except.error e →
        callback (some s) code url =
          HttpResponse.page ("<h1>Authorization Error</h1><p>" ++ e ++
            "</p><p><a href=\"/\">Start over</a></p>"))) := by
  refine ⟨fun h => by unfold callback; simp [h],
    fun h => ⟨fun hok => ?_, fun e herr => ?_⟩⟩
  · unfold callback
    have hc : ((code.getD "") == "") = false := by simpa using h
    simp [hc, hok]
  · unfold callback
    have hc : ((code.getD "") == "") = false := by simpa using h
    simp [hc, herr]

/-- Witness for the amended C8: a missing code renders the error page; a
non-empty code redirects on success and renders the inline error page with
the restart link when the processor raises. -/
theorem callback_behavior_witness :
    callback (some (Smart.mk none fun _ => Except.ok ())) none "u" =
      HttpResponse.page
        "<h1>Authorization Error</h1><p>Authorization code is missing.</p>" ∧
    callback (some (Smart.mk none fun _ => Except.ok ())) (some "abc123") "u" =
      HttpResponse.redirect "/" ∧
    callback (some (Smart.mk none fun _ => Except.error "invalid grant"))
        (some "abc123") "u" =
      HttpResponse.page ("<h1>Authorization Error</h1><p>invalid grant</p><p><a href=\"/\">Start over</a></p>") :=
  ⟨(callback_behavior (Smart.mk none fun _ => Except.ok ()) none "u").1 rfl,
   ((callback_behavior (Smart.mk none fun _ => Except.ok ())
      (some "abc123") "u").2 (by decide)).1 rfl,
   ((callback_behavior (Smart.mk none fun _ => Except.error "invalid grant")
      (some "abc123") "u").2 (by decide)).2 "invalid grant" rfl⟩

/-! ### C9 -/

/-- On a present concept whose data strings all differ from `s` (and with
`s` not the unnamed-medication sentinel), `medName` cannot return `s`. -/
theorem medName_avoids (c : CodeableConcept) (s : String)
    (h : conceptAvoids s c = true) (hu : s ≠ "Unnamed Medication") :
    medName (some c) ≠ s := by
  unfold conceptAvoids at h
  simp only [Bool.and_eq_true, bne_iff_ne, ne_eq, List.all_eq_true] at h
  obtain ⟨ht, hall⟩ := h
  unfold medName
  dsimp only
  split
  · rename_i cd hcd
    split at hcd
    · exact absurd hcd (by simp)
    · exact hall cd (List.mem_of_find?_eq_some hcd)
  · split
    · rename_i cd hcd
      split at hcd
      · exact absurd hcd (by simp)
      · exact hall cd (List.mem_of_find?_eq_some hcd)
    · split
      · exact ht
      · exact fun he => hu he.symm

/-- Counterexample for C9 as stated: the sentinel string can flow in as
ordinary data, so `getMedName` *can* return
`"Medication data unavailable"` — here via an inline concept whose free
text happens to equal the sentinel. -/
theorem getMedName_unavailable_counterexample :
    getMedName (some (MedicationRequest.mk "p1"
      (some (CodeableConcept.mk [] "Medication data unavailable")) none))
      none = "Medication data unavailable" := rfl

/-- C9 (amended): `medName` returns `"Medication data unavailable"` on an
absent concept, and `getMedName` applies `medName` only under the guard
that a concept was resolved; hence on every input whose concept data
(inline or fetched) never carries that sentinel as a text or display value,
`getMedName` never returns it.  (The unguarded claim fails because the
sentinel can also arrive as ordinary data.) -/
theorem getMedName_unavailable_unreachable :
    medName none = "Medication data unavailable" ∧
    ∀ (prescription : Option MedicationRequest)
      (smart_client : Option Smart),
      (∀ p c, prescription = some p →
        p.medicationCodeableConcept = some c →
        conceptAvoids "Medication data unavailable" c = true) →
      (∀ sm, smart_client = some sm →
        smartAvoids "Medication data unavailable" sm) →
      getMedName prescription smart_client ≠ "Medication data unavailable" := by
  refine ⟨rfl, ?_⟩
  intro prescription smart_client h1 h2
  unfold getMedName
  split
  · decide
  · rename_i p
    split
    · rename_i mc hmc
      have hav := h1 p mc rfl hmc
      split
      · have := hav
        unfold conceptAvoids at this
        simp only [Bool.and_eq_true, bne_iff_ne, ne_eq] at this
        exact this.1
      · exact medName_avoids mc _ hav (by decide)
    · split
      · rename_i r hr
        split
        · dsimp only
          split
          · rename_i c hc
            obtain ⟨s, read, m, hsc, hserver, hread⟩ :=
              getMedicationByRef_some _ _ _ hc
            have hav := (h2 s hsc) read m c hserver hread
            exact medName_avoids c _ hav (by decide)
          · decide
        · decide
      · decide

/-- Witness for the amended C9: an ordinary inline concept resolves to its
own text, not to the unavailable sentinel. -/
theorem getMedName_unavailable_unreachable_witness :
    getMedName (some (MedicationRequest.mk "p1"
      (some (CodeableConcept.mk [] "Aspirin")) none)) none ≠
    "Medication data unavailable" :=
  getMedName_unavailable_unreachable.2
    (some (MedicationRequest.mk "p1"
      (some (CodeableConcept.mk [] "Aspirin")) none)) none
    (fun p c hp hc => by
      injection hp with hp'
      subst hp'
      injection hc with hc'
      subst hc'
      decide)
    (fun sm h => Option.noConfusion h)

/-! ### C10 -/

/-- Python's split always returns at least one chunk. -/
theorem pySplitList_ne_nil (sep : Char) :
    ∀ l : List Char, pySplitList sep l ≠ []
  | [] => by simp [pySplitList]
  | c :: cs => by
    unfold pySplitList
    by_cases h : c = sep
    · simp [h]
    · simp only [h, if_false]
      cases hps : pySplitList sep cs <;> simp

/-- The first chunk of Python's split is the longest separator-free
prefix. -/
theorem pySplitList_head (sep : Char) :
    ∀ l : List Char,
      (pySplitList sep l).head? = some (l.takeWhile (· ≠ sep))
  | [] => rfl
  | c :: cs => by
    unfold pySplitList
    by_cases h : c = sep
    · simp [h, List.takeWhile_cons]
    · have ih := pySplitList_head sep cs
      cases hps : pySplitList sep cs with
      | nil => exact absurd hps (pySplitList_ne_nil sep cs)
      | cons s ss =>
        rw [hps] at ih
        simp only [List.head?_cons, Option.some.injEq] at ih
        simp [h, hps, List.takeWhile_cons, ih]

/-- The second chunk of Python's split, for a list containing the
separator, is the stretch strictly between the first separator and the
next one (or the end). -/
theorem pySplitList_second (sep : Char) :
    ∀ l : List Char, sep ∈ l →
      (pySplitList sep l).get? 1 =
        some (((l.dropWhile (· ≠ sep)).drop 1).takeWhile (· ≠ sep))
  | c :: cs, hmem => by
    unfold pySplitList
    by_cases h : c = sep
    · subst h
      have hhead := pySplitList_head c cs
      cases hps : pySplitList c cs with
      | nil => exact absurd hps (pySplitList_ne_nil c cs)
      | cons s ss =>
        rw [hps] at hhead
        simp only [List.head?_cons, Option.some.injEq] at hhead
        simp [List.dropWhile_cons, hhead]
    · have hmem' : sep ∈ cs := by
        cases hmem with
        | head => exact absurd rfl h
        | tail _ hm => exact hm
      have ih := pySplitList_second sep cs hmem'
      cases hps : pySplitList sep cs with
      | nil => exact absurd hps (pySplitList_ne_nil sep cs)
      | cons s ss =>
        rw [hps] at ih
        simp only [h, if_false, hps]
        rw [List.dropWhile_cons]
        simp only [h, decide_not, ne_eq, decide_eq_true_eq,
          Bool.not_eq_false] at ih ⊢
        simpa [h] using ih

/-- For a reference string containing `'/'`, Python's
`ref.split("/")[1]` is exactly the substring between the first `'/'` and
the second one (or the end of the string). -/
theorem refMedId_eq_between (ref : String)
    (h : ref.data.contains '/' = true) :
    refMedId ref = some (betweenFirstTwoSlashes ref) := by
  have hmem : '/' ∈ ref.data := by simpa using h
  unfold refMedId betweenFirstTwoSlashes
  rw [List.get?_map, pySplitList_second '/' ref.data hmem]
  rfl

/-- C10: for every reference containing `'/'` and a handle with a server,
the id handed to the external fetch is `ref.split("/")[1]` — the substring
between the first and second `'/'`, not the last path segment — so
`getMedicationByRef` is exactly the fetch at `betweenFirstTwoSlashes ref`
(with a raised exception folded to `none`). -/
theorem getMedicationByRef_fetch_id (ref : String) (s : Smart)
    (read : String → Except String (Option CodeableConcept))
    (hs : s.server = some read) (hslash : ref.data.contains '/' = true) :
    getMedicationByRef ref (some s) =
      match read (betweenFirstTwoSlashes ref) with
      | .ok code => code
      | .error _ => none := by
  have hne : ref ≠ "" := by
    intro he
    rw [he] at hslash
    exact absurd hslash (by decide)
  have hmem : '/' ∈ ref.data := by simpa using hslash
  unfold getMedicationByRef
  rw [refMedId_eq_between ref hslash]
  simp [hne, hmem, hs]

/-- Witness for C10, with a fetch that echoes the requested id into the
returned concept's text: the plain reference `"Medication/123"` fetches id
`"123"`, while the absolute-URL-shaped reference
`"http://x/Medication/123"` fetches the empty segment right after
`"http:"` — not the trailing `"123"`. -/
theorem getMedicationByRef_fetch_id_witness :
    getMedicationByRef "Medication/123"
      (some (Smart.mk
        (some fun m => Except.ok (some (CodeableConcept.mk [] m)))
        fun _ => Except.ok ())) =
      some (CodeableConcept.mk [] "123") ∧
    getMedicationByRef "http://x/Medication/123"
      (some (Smart.mk
        (some fun m => Except.ok (some (CodeableConcept.mk [] m)))
        fun _ => Except.ok ())) =
      some (CodeableConcept.mk [] "") := by
  constructor
  · rw [getMedicationByRef_fetch_id "Medication/123" _ _ rfl (by decide)]
    rfl
  · rw [getMedicationByRef_fetch_id "http://x/Medication/123" _ _ rfl
      (by decide)]
    rfl
